import Mathlib

/-!
Shallow embedding of the minikube desktop-extension core: the cluster
reconciler of `src/extension.ts` (`updateClusters`), the release source and
installer of `src/download.ts` (`MinikubeDownload`), the binary locator,
installer and file-deletion helpers of `src/util.ts`, the CLI uninstaller of
`src/minikube-cli.ts` (`MinikubeCli.doUninstall`) and the image mover of
`src/image-handler.ts` (`ImageHandler.moveImage`).

Outcomes of external collaborators (process execution, file system, GitHub
API, user prompts) are passed in as explicit `Except`/`Bool`/`Option`
parameters collected in small "world" structures; each embedded operation
returns its result and, where relevant, the trace of side-effecting
operations it performed.
-/

namespace Minikube

instance {ε α : Type} [DecidableEq ε] [DecidableEq α] : DecidableEq (Except ε α) := fun
  | Except.error e₁, Except.error e₂ =>
    if h : e₁ = e₂ then isTrue (by rw [h]) else isFalse (by intro hc; cases hc; exact h rfl)
  | Except.error _, Except.ok _ => isFalse (by intro hc; cases hc)
  | Except.ok _, Except.error _ => isFalse (by intro hc; cases hc)
  | Except.ok a₁, Except.ok a₂ =>
    if h : a₁ = a₂ then isTrue (by rw [h]) else isFalse (by intro hc; cases hc; exact h rfl)

/-! ### Cluster reconciler (src/extension.ts) -/

/-- `const API_MINIKUBE_INTERNAL_API_PORT = 8443`. -/
def API_MINIKUBE_INTERNAL_API_PORT : Nat := 8443

/-- The managed-cluster label key used by `updateClusters` and
`searchMinikubeClusters`. -/
def minikubeLabelKey : String := "name.minikube.sigs.k8s.io"

/-- One entry of `container.Ports`. -/
structure Port where
  PrivatePort : Nat
  PublicPort : Nat
  Type' : String
deriving DecidableEq

/-- The container-engine facts `updateClusters` reads from a
`ContainerInfo`. -/
structure ContainerInfo where
  Labels : List (String × String)
  State : String
  Ports : List Port
  engineType : String
  engineId : String
  Id : String
deriving DecidableEq

/-- `container.Labels['name.minikube.sigs.k8s.io']`. -/
def lookupLabel (c : ContainerInfo) : Option String :=
  (c.Labels.find? (fun kv => kv.fst == minikubeLabelKey)).map (fun kv => kv.snd)

/-- The intermediate record built by the `containers.map` step of
`updateClusters`. -/
structure MinikubeContainer where
  name : String
  status : String
  apiPort : Nat
  engineType : String
  engineId : String
  id : String
deriving DecidableEq

/-- The predicate of
`container.Ports.find(port => port.PrivatePort === 8443 && port.Type === 'tcp')`. -/
def isApiPortBinding (p : Port) : Bool :=
  p.PrivatePort == API_MINIKUBE_INTERNAL_API_PORT && p.Type' == "tcp"

/-- The body of the `containers.map` step of `updateClusters`: name from the
label value, status `started` iff `State === 'running'`, apiPort from the
matching port binding (`listeningPort?.PublicPort ?? 0`). -/
def toMinikubeContainer (c : ContainerInfo) : MinikubeContainer :=
  { name := (lookupLabel c).getD ""
  , status := if c.State == "running" then "started" else "stopped"
  , apiPort :=
      match c.Ports.find? isApiPortBinding with
      | some p => p.PublicPort
      | none => 0
  , engineType := c.engineType
  , engineId := c.engineId
  , id := c.Id }

/-- The endpoint URL template: `` `https://localhost:${cluster.apiPort}` ``. -/
def apiURLOf (apiPort : Nat) : String := "https://localhost:" ++ toString apiPort

/-- The argument vectors of the `ProviderConnectionLifecycle` closures created
for a cluster name. -/
structure Lifecycle where
  startArgs : List String
  stopArgs : List String
  deleteArgs : List String
deriving DecidableEq

/-- The lifecycle built in `updateClusters` for a new connection. -/
def mkLifecycle (name : String) : Lifecycle :=
  { startArgs := ["start", "--profile", name]
  , stopArgs := ["stop", "--profile", name, "--keep-context-active"]
  , deleteArgs := ["delete", "--profile", name] }

/-- The `KubernetesProviderConnection` shape (`status` is the value the status
accessor closure returns). -/
structure Connection where
  name : String
  status : String
  apiURL : String
  lifecycle : Lifecycle
deriving DecidableEq

/-- One element of `registeredKubernetesConnections`; `connId` models the
JavaScript object identity of the connection. -/
structure Entry where
  connId : Nat
  connection : Connection
deriving DecidableEq

/-- The module-level mutable state: the connection registry, an allocator for
object identities, and the ids passed to `disposable.dispose()` so far. -/
structure RegistryState where
  registry : List Entry
  nextId : Nat
  disposed : List Nat
deriving DecidableEq

/-- The state at extension activation: no connections registered. -/
def initialState : RegistryState := { registry := [], nextId := 0, disposed := [] }

/-- The connection object created and registered for a cluster not yet present
in the registry. -/
def freshEntry (id : Nat) (cl : MinikubeContainer) : Entry :=
  { connId := id
  , connection :=
    { name := cl.name
    , status := cl.status
    , apiURL := apiURLOf cl.apiPort
    , lifecycle := mkLifecycle cl.name } }

/-- The in-place mutation of an already registered connection:
`item.connection.status = status; item.connection.endpoint.apiURL = ...`. -/
def connUpdate (cl : MinikubeContainer) (x : Entry) : Entry :=
  { x with connection :=
    { x.connection with status := cl.status, apiURL := apiURLOf cl.apiPort } }

/-- Mutate the first list element whose connection has the given name
(`registeredKubernetesConnections.find` returns the first match, and the
mutation happens on that object). -/
def updateFirst (nm : String) (f : Entry → Entry) : List Entry → List Entry
  | [] => []
  | e :: rest =>
    if e.connection.name == nm then f e :: rest else e :: updateFirst nm f rest

/-- One iteration of the `minikubeContainers.forEach(cluster => ...)` loop of
`updateClusters`: update the existing connection in place, or register a fresh
one (pushed at the end of the registry). -/
def updateOne (st : RegistryState) (cl : MinikubeContainer) : RegistryState :=
  match st.registry.find? (fun e => e.connection.name == cl.name) with
  | some _ => { st with registry := updateFirst cl.name (connUpdate cl) st.registry }
  | none =>
    { st with
      registry := st.registry ++ [freshEntry st.nextId cl]
    , nextId := st.nextId + 1 }

/-- The `registeredKubernetesConnections.forEach` removal loop of
`updateClusters`, with JavaScript `Array.prototype.forEach` semantics: the
iteration count is fixed to the length at loop entry (the `fuel`), the element
visited at index `k` is read from the *current* array, indices beyond the
current length are skipped, and a stale entry is disposed and then spliced out
at its current index, shifting later elements down. Returns the final array
and the ids disposed, in order. -/
def forEachRemove (names : List String) : Nat → Nat → List Entry → List Entry × List Nat
  | 0, _, cur => (cur, [])
  | fuel + 1, k, cur =>
    if h : k < cur.length then
      let item := cur.get ⟨k, h⟩
      if names.contains item.connection.name then
        forEachRemove names fuel (k + 1) cur
      else
        let rest := forEachRemove names fuel (k + 1) (cur.eraseIdx k)
        (rest.fst, item.connId :: rest.snd)
    else
      forEachRemove names fuel (k + 1) cur

/-- The `containers.map(...)` step of `updateClusters`. -/
def derivedClusters (containers : List ContainerInfo) : List MinikubeContainer :=
  containers.map toMinikubeContainer

/-- The names of the derived cluster set (what the removal loop's
`minikubeClusters.find(cluster => cluster.name === item.connection.name)`
checks against). -/
def clusterNames (containers : List ContainerInfo) : List String :=
  (derivedClusters containers).map (fun cl => cl.name)

/-- The ids disposed during one `updateClusters` pass. -/
def newlyDisposed (st : RegistryState) (containers : List ContainerInfo) : List Nat :=
  let st1 := (derivedClusters containers).foldl updateOne st
  (forEachRemove (clusterNames containers) st1.registry.length 0 st1.registry).snd

/-- One full reconciliation pass (`updateClusters`): map the containers to
derived clusters, create/update connections, then run the removal loop. -/
def updateClusters (st : RegistryState) (containers : List ContainerInfo) : RegistryState :=
  let st1 := (derivedClusters containers).foldl updateOne st
  let res := forEachRemove (clusterNames containers) st1.registry.length 0 st1.registry
  { registry := res.fst, nextId := st1.nextId, disposed := st.disposed ++ res.snd }

/-- The fresh entries appended for a run of clusters none of which is yet
registered, with consecutive identities starting at `n`. -/
def freshEntries : Nat → List MinikubeContainer → List Entry
  | _, [] => []
  | n, cl :: rest => freshEntry n cl :: freshEntries (n + 1) rest

/-- Well-formedness of the registry state: connection names are pairwise
distinct, object identities are pairwise distinct, and all identities were
allocated below `nextId`. This holds at activation and is preserved by every
reconciliation pass. -/
def wf (st : RegistryState) : Prop :=
  (st.registry.map (fun e => e.connection.name)).Nodup
  ∧ (st.registry.map (fun e => e.connId)).Nodup
  ∧ ∀ e ∈ st.registry, e.connId < st.nextId

instance (st : RegistryState) : Decidable (wf st) := by
  unfold wf; infer_instance

/-- Preservation relation between a registry entry before and after a
reconciliation pass: same object identity, same connection name, same
lifecycle closures — only the status accessor and the endpoint may differ. -/
def presEntry (e e' : Entry) : Prop :=
  e'.connId = e.connId
  ∧ e'.connection.name = e.connection.name
  ∧ e'.connection.lifecycle = e.connection.lifecycle

/-! ### Release source (src/download.ts) -/

/-- One release as returned by `octokit.repos.listReleases`. -/
structure GithubRelease where
  name : Option String
  tag_name : String
  id : Nat
  prerelease : Bool
deriving DecidableEq

/-- The metadata record built by `grabLatestsReleasesMetadata`. -/
structure MinikubeGithubReleaseArtifactMetadata where
  label : String
  tag : String
  id : Nat
deriving DecidableEq

/-- The `map` body of `grabLatestsReleasesMetadata`:
`label: release.name ?? release.tag_name, tag: release.tag_name, id: release.id`. -/
def toReleaseMetadata (r : GithubRelease) : MinikubeGithubReleaseArtifactMetadata :=
  { label := r.name.getD r.tag_name, tag := r.tag_name, id := r.id }

/-- The `per_page` parameter of the `listReleases` fetch. -/
def listReleasesPerPage : Nat := 10

/-- `grabLatestsReleasesMetadata` applied to the fetched release list (newest
first, as returned by the registry): drop prereleases, map to metadata, keep
at most 5. -/
def grabLatestsReleasesMetadata (data : List GithubRelease) :
    List MinikubeGithubReleaseArtifactMetadata :=
  ((data.filter (fun r => !r.prerelease)).map toReleaseMetadata).take 5

/-- `getLatestVersionAsset`: `latestReleases[0]` — JavaScript indexing, which
is `undefined` (here `none`) when the list is empty; no error is raised. -/
def getLatestVersionAsset (data : List GithubRelease) :
    Option MinikubeGithubReleaseArtifactMetadata :=
  (grabLatestsReleasesMetadata data).head?

/-! ### Version normalization (src/util.ts, src/extension.ts) -/

/-- Remove the first occurrence of the character `v`, as JavaScript
`String.prototype.replace('v', '')` does (string patterns replace only the
first occurrence). -/
def removeFirstV : List Char → List Char
  | [] => []
  | c :: rest => if c = 'v' then rest else c :: removeFirstV rest

/-- `String.prototype.trim`: drop whitespace from both ends. -/
def trimChars (l : List Char) : List Char :=
  ((l.dropWhile Char.isWhitespace).reverse.dropWhile Char.isWhitespace).reverse

/-- The normalization applied to release tags and to the stdout of
`minikube version --short`: `.replace('v', '').trim()`. -/
def stripVersion (s : String) : String :=
  String.mk (trimChars (removeFirstV s.data))

/-- `getMinikubeVersion` applied to the stdout of
`exec(executable, ['version', '--short'])`. -/
def getMinikubeVersion (stdout : String) : String := stripVersion stdout

/-! ### Binary locator (src/util.ts whereBinary, src/download.ts findMinikube) -/

/-- Remove every line-break character, as the regex
`/(\r\n|\n|\r)/gm` replacement in `whereBinary` does on Windows. -/
def stripLineBreaks (s : String) : String :=
  String.mk (s.data.filter (fun c => !(c == '\n' || c == '\r')))

/-- Host-OS facts consumed by the path helpers. -/
structure OsEnv where
  isWindows : Bool
  isLinux : Bool
  isMac : Bool
  homedir : String
  storagePath : String
deriving DecidableEq

/-- `getBinarySystemPath`: per-user WindowsApps folder on Windows,
`/usr/local/bin/<name>` elsewhere. -/
def getBinarySystemPath (env : OsEnv) (binaryName : String) : String :=
  if env.isWindows then
    env.homedir ++ "/AppData/Local/Microsoft/WindowsApps/" ++ binaryName ++ ".exe"
  else
    "/usr/local/bin/" ++ binaryName

/-- `MinikubeDownload.getMinikubeExtensionPath`:
`<storagePath>/minikube[.exe]`. -/
def getMinikubeExtensionPath (env : OsEnv) : String :=
  env.storagePath ++ "/minikube" ++ (if env.isWindows then ".exe" else "")

/-- Outcomes of the PATH lookups attempted by `whereBinary` (the stdout of
`which` / `where.exe`, or their failure). -/
structure LookupWorld where
  env : OsEnv
  whichResult : Except String String
  whereResult : Except String String
deriving DecidableEq

/-- `whereBinary`: on Linux/macOS return the `which` stdout as-is (the catch
falls through to the final throw); on Windows return the `where.exe` stdout
with line breaks removed; otherwise (or on lookup failure) throw
`binary <executable> not found.`. -/
def whereBinary (w : LookupWorld) (executable : String) : Except String String :=
  if w.env.isLinux || w.env.isMac then
    match w.whichResult with
    | Except.ok fullPath => Except.ok fullPath
    | Except.error _ => Except.error ("binary " ++ executable ++ " not found.")
  else if w.env.isWindows then
    match w.whereResult with
    | Except.ok fullPath => Except.ok (stripLineBreaks fullPath)
    | Except.error _ => Except.error ("binary " ++ executable ++ " not found.")
  else
    Except.error ("binary " ++ executable ++ " not found.")

/-- World for `MinikubeDownload.findMinikube`: the lookup outcomes plus
whether the extension-private file exists on disk. -/
structure FindWorld where
  lookup : LookupWorld
  extensionFileExists : Bool
deriving DecidableEq

/-- `MinikubeDownload.findMinikube`: try `whereBinary('minikube')`, swallowing
its failure; fall back to the extension path if that file exists; otherwise
report not-found (`undefined`, here `none`) without raising. -/
def findMinikube (w : FindWorld) : Option String :=
  match whereBinary w.lookup "minikube" with
  | Except.ok p => some p
  | Except.error _ =>
    if w.extensionFileExists then some (getMinikubeExtensionPath w.lookup.env) else none

/-! ### Installer (src/util.ts installBinaryToSystem, src/download.ts install) -/

/-- Outcomes of the steps of `installBinaryToSystem`: `process.platform`,
whether `/usr/local/bin` exists, and the results of the `chmod +x`, elevated
`mkdir -p` and elevated copy executions. -/
structure SysInstallWorld where
  env : OsEnv
  platform : String
  localBinDirExists : Bool
  chmodResult : Except String Unit
  mkdirResult : Except String Unit
  copyResult : Except String Unit
deriving DecidableEq

/-- `installBinaryToSystem`: chmod on POSIX (failure wrapped and thrown),
elevated `mkdir -p /usr/local/bin` on POSIX when absent (failure thrown),
elevated copy to the system-wide destination; on copy success return the
destination path, on copy failure rethrow. -/
def installBinaryToSystem (w : SysInstallWorld) (binaryPath binaryName : String) :
    Except String String :=
  let posix := w.platform == "linux" || w.platform == "darwin"
  let chmodStep := if posix then w.chmodResult else Except.ok ()
  match chmodStep with
  | Except.error e => Except.error ("Error making binary executable: " ++ e)
  | Except.ok _ =>
    let _ := binaryPath
    let destinationPath := getBinarySystemPath w.env binaryName
    let mkdirStep := if posix && !w.localBinDirExists then w.mkdirResult else Except.ok ()
    match mkdirStep with
    | Except.error e => Except.error e
    | Except.ok _ =>
      match w.copyResult with
      | Except.ok _ => Except.ok destinationPath
      | Except.error e => Except.error e

/-- `MinikubeDownload.install`: download into extension storage (outcome given
by `downloadResult`; on success the downloaded file is at the extension path),
then best-effort promotion via `installBinaryToSystem` whose failure is caught
and logged (`console.debug`), falling back to the extension path. -/
def install (w : SysInstallWorld) (downloadResult : Except String Unit) :
    Except String String :=
  match downloadResult with
  | Except.error e => Except.error e
  | Except.ok _ =>
    let destFile := getMinikubeExtensionPath w.env
    match installBinaryToSystem w destFile "minikube" with
    | Except.ok p => Except.ok p
    | Except.error _ => Except.ok destFile

/-! ### File deletion (src/util.ts deleteFile / deleteFileAsAdmin) -/

/-- File-system / process operations attempted during uninstall flows. -/
inductive FsOp where
  | unlink (p : String)
  | adminExec (cmd : String) (p : String)
  | rm (p : String)
deriving DecidableEq

/-- `true` exactly for the elevated-execution retry operation. -/
def isElevatedOp : FsOp → Bool
  | FsOp.adminExec _ _ => true
  | _ => false

/-- Errors escaping `deleteFile`: the original file-system error (with its
`code` when it carried one), or the elevated execution's error. -/
inductive DeleteError where
  | fsError (code : Option String)
  | execError (msg : String)
deriving DecidableEq

/-- Outcomes for `deleteFile`: whether the file exists, the `unlink` outcome
(error payload is the error's `code` property, `none` when absent), and the
elevated execution outcome. -/
structure DeleteWorld where
  isWindows : Bool
  fileExists : Bool
  unlinkResult : Except (Option String) Unit
  adminExecResult : Except String Unit
deriving DecidableEq

/-- `deleteFileAsAdmin`: run `del`/`rm` with `isAdmin: true`; its failure is
logged and rethrown. -/
def deleteFileAsAdmin (w : DeleteWorld) (filePath : String) :
    Except DeleteError Unit × List FsOp :=
  let command := if w.isWindows then "del" else "rm"
  match w.adminExecResult with
  | Except.ok _ => (Except.ok (), [FsOp.adminExec command filePath])
  | Except.error e => (Except.error (DeleteError.execError e), [FsOp.adminExec command filePath])

/-- The `error.code === 'EACCES' || error.code === 'EPERM'` test. -/
def isPermissionCode (code : Option String) : Bool :=
  code == some "EACCES" || code == some "EPERM"

/-- `deleteFile`: nothing when the path is falsy or the file is absent;
otherwise `unlink`, retrying once via `deleteFileAsAdmin` exactly on a
permission error and propagating any other error unchanged. -/
def deleteFile (w : DeleteWorld) (filePath : String) :
    Except DeleteError Unit × List FsOp :=
  if filePath != "" && w.fileExists then
    match w.unlinkResult with
    | Except.ok _ => (Except.ok (), [FsOp.unlink filePath])
    | Except.error code =>
      if isPermissionCode code then
        let res := deleteFileAsAdmin w filePath
        (res.fst, FsOp.unlink filePath :: res.snd)
      else
        (Except.error (DeleteError.fsError code), [FsOp.unlink filePath])
  else
    (Except.ok (), [])

/-- Render a `DeleteError` as the message that propagates out of callers that
only forward the error. -/
def DeleteError.message : DeleteError → String
  | DeleteError.fsError none => "fs error"
  | DeleteError.fsError (some code) => code
  | DeleteError.execError msg => msg

/-! ### CLI uninstaller (src/minikube-cli.ts MinikubeCli.doUninstall) -/

/-- World for `MinikubeCli.doUninstall`: the detected binary path held in
`#cliInfo` (absent when not installed), the outcome of `rm` on the
extension-storage executable, and the `deleteFile` world used for a
system-wide installation. -/
structure UninstallWorld where
  env : OsEnv
  cliInfoPath : Option String
  rmExtensionResult : Except String Unit
  deleteWorld : DeleteWorld
deriving DecidableEq

/-- `MinikubeCli.doUninstall`: error when nothing is installed; `rm` the
extension-storage executable when that is the known path (after which the
final `existsSync` cleanup check is false); `deleteFile` (early return) when
the known path is the system-wide one; otherwise log and throw the
"not managed by this extension" error without touching the file system. -/
def doUninstall (w : UninstallWorld) : Except String Unit × List FsOp :=
  match w.cliInfoPath with
  | none =>
    (Except.error "cannot uninstalled minikube: the extension did not detect any installed.", [])
  | some p =>
    let extensionMinikubeExecutable := getMinikubeExtensionPath w.env
    if p == extensionMinikubeExecutable then
      match w.rmExtensionResult with
      | Except.error e => (Except.error e, [FsOp.rm p])
      | Except.ok _ => (Except.ok (), [FsOp.rm p])
    else if p == getBinarySystemPath w.env "minikube" then
      let res := deleteFile w.deleteWorld p
      (res.fst.mapError DeleteError.message, res.snd)
    else
      (Except.error "cannot uninstall minikube not-installed by the extension.", [])

/-! ### Update check (src/extension.ts checkUpdate) -/

/-- World for `checkUpdate`: whether the CLI tool object and the binary path
are known, the outcome of running `version --short`, and the latest release
metadata (`none` models `getLatestVersionAsset` returning `undefined`). -/
structure UpdateWorld where
  cliToolPresent : Bool
  minikubeCli : Option String
  versionExecResult : Except String String
  latestRelease : Option MinikubeGithubReleaseArtifactMetadata
deriving DecidableEq

/-- Observable outcome of `checkUpdate`. -/
inductive UpdateOutcome where
  | noCheck
  | versionFailed
  | typeError
  | noUpdate
  | registered (version : String)
deriving DecidableEq

/-- `checkUpdate`: return early when the tool or the binary is unknown; abort
when the version query fails; crash (TypeError) reading `.tag` when no release
metadata came back; otherwise register an update exactly when the stripped
release tag differs textually from the stripped installed version. -/
def checkUpdate (w : UpdateWorld) : UpdateOutcome :=
  if !w.cliToolPresent || w.minikubeCli == none then UpdateOutcome.noCheck
  else
    match w.versionExecResult with
    | Except.error _ => UpdateOutcome.versionFailed
    | Except.ok stdout =>
      let binaryVersion := getMinikubeVersion stdout
      match w.latestRelease with
      | none => UpdateOutcome.typeError
      | some m =>
        let lastReleaseVersion := stripVersion m.tag
        if lastReleaseVersion != binaryVersion then
          UpdateOutcome.registered lastReleaseVersion
        else UpdateOutcome.noUpdate

/-! ### Image mover (src/image-handler.ts ImageHandler.moveImage) -/

/-- The `MinikubeCluster` records handed to the image mover. -/
structure MinikubeCluster where
  name : String
  status : String
  apiPort : Nat
  engineType : String
deriving DecidableEq

/-- The `{ label, engineType }` selection record. -/
structure SelectedCluster where
  label : String
  engineType : String
deriving DecidableEq

/-- The image argument of `moveImage`. -/
structure ImageInfo where
  engineId : String
  name : Option String
  tag : Option String
deriving DecidableEq

/-- Side effects performed by `moveImage`, in order. -/
inductive MoveAction where
  | saveImage (engineId : String) (imageRef : String) (dest : String)
  | execLoad (cli : String) (args : List String)
  | showInfo (msg : String)
  | showError (msg : String)
  | rmTemp (file : String)
deriving DecidableEq

/-- World for `moveImage`: inputs plus the outcomes of the quick-pick prompt,
temp-file creation, image export and the image-load execution. -/
structure MoveWorld where
  image : ImageInfo
  clusters : List MinikubeCluster
  minikubeCli : String
  quickPickResult : Option SelectedCluster
  tmpNameResult : Except String String
  saveImageResult : Except String Unit
  execLoadResult : Except String Unit
deriving DecidableEq

/-- `minikubeClusters.filter(cluster => cluster.status === 'started')`. -/
def startedClusters (w : MoveWorld) : List MinikubeCluster :=
  w.clusters.filter (fun c => c.status == "started")

/-- The cluster selection step: exactly one started cluster is auto-selected;
several prompt the user (who may cancel, yielding `none`). Only meaningful
when at least one started cluster exists. -/
def selectedCluster (w : MoveWorld) : Option SelectedCluster :=
  match startedClusters w with
  | [] => none
  | [c] => some { label := c.name, engineType := c.engineType }
  | _ => w.quickPickResult

/-- The `name[:tag]` composition; `if (image.tag)` is JavaScript truthiness,
so an empty tag is ignored. -/
def imageRefOf (image : ImageInfo) (nm : String) : String :=
  match image.tag with
  | some t => if t != "" then nm ++ ":" ++ t else nm
  | none => nm

/-- The error-dialog text of the catch block. -/
def pushErrorMessage (imageName label err : String) : String :=
  "Unable to push image " ++ imageName ++ " to minikube cluster: " ++ label
    ++ ". Error: " ++ err

/-- The error rethrown out of the catch block. -/
def thrownMessage (err : String) : String :=
  "Unable to push image to minikube cluster: " ++ err

/-- `ImageHandler.moveImage`: validate the image name, require a started
cluster, select one, then try temp-file creation, image export and
`<cli> -p <cluster> image load <tempfile>`; failures show an error dialog and
rethrow; the `finally` block removes the temp file whenever one was created. -/
def moveImage (w : MoveWorld) : Except String Unit × List MoveAction :=
  match w.image.name with
  | none => (Except.error "Image selection not supported yet", [])
  | some nm =>
    match startedClusters w with
    | [] => (Except.error "No minikube clusters to push to", [])
    | _ =>
      match selectedCluster w with
      | none => (Except.ok (), [])
      | some sel =>
        let name := imageRefOf w.image nm
        match w.tmpNameResult with
        | Except.error e =>
          (Except.error (thrownMessage e),
            [MoveAction.showError (pushErrorMessage nm sel.label e)])
        | Except.ok filename =>
          match w.saveImageResult with
          | Except.error e =>
            (Except.error (thrownMessage e),
              [MoveAction.saveImage w.image.engineId name filename,
               MoveAction.showError (pushErrorMessage nm sel.label e),
               MoveAction.rmTemp filename])
          | Except.ok _ =>
            match w.execLoadResult with
            | Except.error e =>
              (Except.error (thrownMessage e),
                [MoveAction.saveImage w.image.engineId name filename,
                 MoveAction.execLoad w.minikubeCli ["-p", sel.label, "image", "load", filename],
                 MoveAction.showError (pushErrorMessage nm sel.label e),
                 MoveAction.rmTemp filename])
            | Except.ok _ =>
              (Except.ok (),
                [MoveAction.saveImage w.image.engineId name filename,
                 MoveAction.execLoad w.minikubeCli ["-p", sel.label, "image", "load", filename],
                 MoveAction.showInfo ("Image " ++ nm ++ " pushed to minikube cluster: " ++ sel.label),
                 MoveAction.rmTemp filename])

/-! ## Theorems -/

/-- The only success value `installBinaryToSystem` can produce is the
system-wide destination path. -/
theorem installBinaryToSystem_ok_path {w : SysInstallWorld} {bp bn p : String}
    (h : installBinaryToSystem w bp bn = Except.ok p) :
    p = getBinarySystemPath w.env bn := by
  simp only [installBinaryToSystem] at h
  split at h
  · exact Except.noConfusion h
  · split at h
    · exact Except.noConfusion h
    · split at h
      · exact (Except.ok.inj h).symm
      · exact Except.noConfusion h

/-- C4: `install(release)` succeeds whenever the download of the release asset
succeeds: when the promotion to the system-wide location succeeds, the
returned path is the system-wide path; when promotion fails, the failure is
swallowed and the extension-private path is returned. -/
theorem install_best_effort_promotion (w : SysInstallWorld) :
    (∃ p, install w (Except.ok ()) = Except.ok p)
    ∧ (∀ p, installBinaryToSystem w (getMinikubeExtensionPath w.env) "minikube" = Except.ok p →
        p = getBinarySystemPath w.env "minikube" ∧ install w (Except.ok ()) = Except.ok p)
    ∧ (∀ e, installBinaryToSystem w (getMinikubeExtensionPath w.env) "minikube" = Except.error e →
        install w (Except.ok ()) = Except.ok (getMinikubeExtensionPath w.env)) := by
  refine ⟨?_, ?_, ?_⟩
  · cases hres : installBinaryToSystem w (getMinikubeExtensionPath w.env) "minikube" with
    | ok p => exact ⟨p, by simp [install, hres]⟩
    | error e => exact ⟨getMinikubeExtensionPath w.env, by simp [install, hres]⟩
  · intro p hp
    exact ⟨installBinaryToSystem_ok_path hp, by simp [install, hp]⟩
  · intro e he
    simp [install, he]

/-- C4 witness: with every elevated step succeeding on Linux, install returns
the system-wide path; with the elevated copy failing, it still succeeds and
returns the extension-private path. -/
theorem install_best_effort_promotion_witness :
    install
      { env := { isWindows := false, isLinux := true, isMac := false,
                 homedir := "/home/user", storagePath := "/storage" }
      , platform := "linux", localBinDirExists := true
      , chmodResult := Except.ok (), mkdirResult := Except.ok ()
      , copyResult := Except.ok () } (Except.ok ())
      = Except.ok "/usr/local/bin/minikube"
    ∧ install
      { env := { isWindows := false, isLinux := true, isMac := false,
                 homedir := "/home/user", storagePath := "/storage" }
      , platform := "linux", localBinDirExists := true
      , chmodResult := Except.ok (), mkdirResult := Except.ok ()
      , copyResult := Except.error "copy failed" } (Except.ok ())
      = Except.ok "/storage/minikube" := by
  constructor
  · exact ((install_best_effort_promotion _).2.1 "/usr/local/bin/minikube" (by decide)).2
  · exact (install_best_effort_promotion _).2.2 "copy failed" (by decide)

/-- C5: uninstalling when the known binary path equals neither the system-wide
path nor the extension-private path fails with the explicit "not managed"
error and performs no filesystem operation. -/
theorem doUninstall_not_managed (w : UninstallWorld) (p : String)
    (hpath : w.cliInfoPath = some p)
    (hext : p ≠ getMinikubeExtensionPath w.env)
    (hsys : p ≠ getBinarySystemPath w.env "minikube") :
    doUninstall w
      = (Except.error "cannot uninstall minikube not-installed by the extension.", []) := by
  unfold doUninstall
  rw [hpath]
  simp [beq_eq_false_iff_ne.mpr hext, beq_eq_false_iff_ne.mpr hsys]

/-- C5 witness: a binary detected at `/opt/tools/minikube` is refused with the
"not managed" error and no file operation happens. -/
theorem doUninstall_not_managed_witness :
    doUninstall
      { env := { isWindows := false, isLinux := true, isMac := false,
                 homedir := "/home/user", storagePath := "/storage" }
      , cliInfoPath := some "/opt/tools/minikube"
      , rmExtensionResult := Except.ok ()
      , deleteWorld :=
        { isWindows := false, fileExists := true
        , unlinkResult := Except.ok (), adminExecResult := Except.ok () } }
      = (Except.error "cannot uninstall minikube not-installed by the extension.", []) :=
  doUninstall_not_managed _ "/opt/tools/minikube" rfl (by decide) (by decide)

/-- C6: with the CLI tool registered, a known binary, a successful version
query and available release metadata, an update is registered if and only if
the stripped release tag differs textually from the stripped `version --short`
output; `stripVersion "v1.2.3 " = "1.2.3"`. -/
theorem checkUpdate_textual_comparison (w : UpdateWorld) (cli stdout : String)
    (m : MinikubeGithubReleaseArtifactMetadata)
    (htool : w.cliToolPresent = true)
    (hcli : w.minikubeCli = some cli)
    (hver : w.versionExecResult = Except.ok stdout)
    (hlatest : w.latestRelease = some m) :
    (checkUpdate w = UpdateOutcome.registered (stripVersion m.tag)
      ↔ stripVersion m.tag ≠ getMinikubeVersion stdout)
    ∧ (checkUpdate w = UpdateOutcome.noUpdate
      ↔ stripVersion m.tag = getMinikubeVersion stdout)
    ∧ stripVersion "v1.2.3 " = "1.2.3" := by
  have hexp : checkUpdate w =
      (if stripVersion m.tag != getMinikubeVersion stdout then
        UpdateOutcome.registered (stripVersion m.tag)
      else UpdateOutcome.noUpdate) := by
    unfold checkUpdate
    rw [htool, hcli, hver, hlatest]
    rfl
  by_cases heq : stripVersion m.tag = getMinikubeVersion stdout
  · rw [hexp]
    simp [heq]
    decide
  · rw [hexp]
    simp [bne_iff_ne, heq]
    decide

/-- C6 witness: an installed `v1.10.0` against a latest tag `v1.9.0` registers
an update (textually different, even though semantically older). -/
theorem checkUpdate_textual_comparison_witness :
    checkUpdate
      { cliToolPresent := true
      , minikubeCli := some "/usr/local/bin/minikube"
      , versionExecResult := Except.ok "v1.10.0\n"
      , latestRelease := some { label := "v1.9.0", tag := "v1.9.0", id := 7 } }
      = UpdateOutcome.registered "1.9.0" := by
  have h := (checkUpdate_textual_comparison
    { cliToolPresent := true
    , minikubeCli := some "/usr/local/bin/minikube"
    , versionExecResult := Except.ok "v1.10.0\n"
    , latestRelease := some { label := "v1.9.0", tag := "v1.9.0", id := 7 } }
    "/usr/local/bin/minikube" "v1.10.0\n"
    { label := "v1.9.0", tag := "v1.9.0", id := 7 }
    rfl rfl rfl rfl).1.mpr (by decide)
  have hs : stripVersion "v1.9.0" = "1.9.0" := by decide
  rw [hs] at h
  exact h

/-- C7 counterexample: with zero releases from the registry,
`getLatestVersionAsset` does not fail with a NotFound error — it resolves
successfully with no metadata (`latestReleases[0]` is `undefined`). -/
theorem getLatestVersionAsset_empty_no_error :
    grabLatestsReleasesMetadata [] = [] ∧ getLatestVersionAsset [] = none := by
  decide

/-- C7 (amended): `getLatestVersionAsset` returns the first element of the
recent-releases list when a non-prerelease release exists, and `none` (not an
error) when the filtered list is empty; at most 5 non-prerelease entries are
retained, each coming from the fetched data. -/
theorem getLatestVersionAsset_behavior (data : List GithubRelease) :
    (grabLatestsReleasesMetadata data).length ≤ 5
    ∧ (∀ r rest,
        (data.filter (fun x => !x.prerelease)).map toReleaseMetadata = r :: rest →
        getLatestVersionAsset data = some r)
    ∧ (data.filter (fun x => !x.prerelease) = [] → getLatestVersionAsset data = none)
    ∧ (∀ m ∈ grabLatestsReleasesMetadata data,
        ∃ g ∈ data, g.prerelease = false ∧ m = toReleaseMetadata g) := by
  refine ⟨?_, ?_, ?_, ?_⟩
  · exact List.length_take_le 5 _
  · intro r rest h
    unfold getLatestVersionAsset grabLatestsReleasesMetadata
    rw [h]
    rfl
  · intro h
    unfold getLatestVersionAsset grabLatestsReleasesMetadata
    rw [h]
    rfl
  · intro m hm
    unfold grabLatestsReleasesMetadata at hm
    have hm' := List.take_subset 5 _ hm
    rcases List.mem_map.mp hm' with ⟨g, hgf, hge⟩
    rcases List.mem_filter.mp hgf with ⟨hgd, hgp⟩
    refine ⟨g, hgd, ?_, hge.symm⟩
    cases h : g.prerelease
    · rfl
    · rw [h] at hgp; exact absurd hgp (by decide)

/-- C7 witness: a registry answer with one stable and one prerelease release
yields the stable one as latest. -/
theorem getLatestVersionAsset_behavior_witness :
    getLatestVersionAsset
      [ { name := some "v1.34.0", tag_name := "v1.34.0", id := 1, prerelease := false }
      , { name := none, tag_name := "v1.33.9", id := 2, prerelease := true } ]
      = some { label := "v1.34.0", tag := "v1.34.0", id := 1 } :=
  (getLatestVersionAsset_behavior
    [ { name := some "v1.34.0", tag_name := "v1.34.0", id := 1, prerelease := false }
    , { name := none, tag_name := "v1.33.9", id := 2, prerelease := true } ]).2.1
    { label := "v1.34.0", tag := "v1.34.0", id := 1 } [] (by decide)

/-- C8: once `moveImage` has created its temporary file, the file is removed
on every outcome; in particular, when the export succeeds and the image-load
command fails, the temp file is still removed and the load failure is rethrown
to the caller. -/
theorem moveImage_cleanup (w : MoveWorld) (nm : String) (sel : SelectedCluster) (f : String)
    (hname : w.image.name = some nm)
    (hstarted : startedClusters w ≠ [])
    (hsel : selectedCluster w = some sel)
    (htmp : w.tmpNameResult = Except.ok f) :
    MoveAction.rmTemp f ∈ (moveImage w).snd
    ∧ (∀ e, w.saveImageResult = Except.ok () → w.execLoadResult = Except.error e →
        (moveImage w).fst = Except.error (thrownMessage e)
        ∧ MoveAction.rmTemp f ∈ (moveImage w).snd) := by
  cases hS : startedClusters w with
  | nil => exact absurd hS hstarted
  | cons a as =>
    constructor
    · cases hsave : w.saveImageResult with
      | error e => simp [moveImage, hname, hS, hsel, htmp, hsave]
      | ok u =>
        cases hexec : w.execLoadResult with
        | error e => simp [moveImage, hname, hS, hsel, htmp, hsave, hexec]
        | ok v => simp [moveImage, hname, hS, hsel, htmp, hsave, hexec]
    · intro e hsave hexec
      simp [moveImage, hname, hS, hsel, htmp, hsave, hexec]

/-- C8 witness: one started cluster, successful export, failing load — the
load failure is rethrown and the temp file is removed. -/
theorem moveImage_cleanup_witness :
    (moveImage
      { image := { engineId := "engine1", name := some "img", tag := none }
      , clusters := [{ name := "minikube", status := "started", apiPort := 55000,
                       engineType := "podman" }]
      , minikubeCli := "/usr/local/bin/minikube"
      , quickPickResult := none
      , tmpNameResult := Except.ok "/tmp/tmp-1"
      , saveImageResult := Except.ok ()
      , execLoadResult := Except.error "load failed" }).fst
      = Except.error (thrownMessage "load failed")
    ∧ MoveAction.rmTemp "/tmp/tmp-1" ∈ (moveImage
      { image := { engineId := "engine1", name := some "img", tag := none }
      , clusters := [{ name := "minikube", status := "started", apiPort := 55000,
                       engineType := "podman" }]
      , minikubeCli := "/usr/local/bin/minikube"
      , quickPickResult := none
      , tmpNameResult := Except.ok "/tmp/tmp-1"
      , saveImageResult := Except.ok ()
      , execLoadResult := Except.error "load failed" }).snd :=
  (moveImage_cleanup _ "img" { label := "minikube", engineType := "podman" } "/tmp/tmp-1"
    rfl (by decide) (by decide) rfl).2 "load failed" rfl rfl

/-- C9 counterexample: on Linux, the PATH lookup result is returned as-is, not
stripped of line-break characters — a `which` stdout ending in a newline is
returned with the newline. -/
theorem whereBinary_posix_not_stripped :
    whereBinary
      { env := { isWindows := false, isLinux := true, isMac := false,
                 homedir := "/home/user", storagePath := "/storage" }
      , whichResult := Except.ok "/usr/bin/minikube\n"
      , whereResult := Except.error "unused" } "minikube"
      = Except.ok "/usr/bin/minikube\n"
    ∧ stripLineBreaks "/usr/bin/minikube\n" ≠ "/usr/bin/minikube\n" := by
  decide

/-- C9 (amended): on success the POSIX lookup result is returned unmodified
while the Windows lookup result is stripped of line-break characters; on
lookup failure, `findMinikube` returns the extension-private path only when
that file exists, and otherwise reports not-found without raising. -/
theorem whereBinary_findMinikube_behavior (w : FindWorld) :
    (∀ out, (w.lookup.env.isLinux = true ∨ w.lookup.env.isMac = true) →
        w.lookup.whichResult = Except.ok out →
        whereBinary w.lookup "minikube" = Except.ok out)
    ∧ (∀ out, w.lookup.env.isLinux = false → w.lookup.env.isMac = false →
        w.lookup.env.isWindows = true →
        w.lookup.whereResult = Except.ok out →
        whereBinary w.lookup "minikube" = Except.ok (stripLineBreaks out))
    ∧ (∀ msg, whereBinary w.lookup "minikube" = Except.error msg →
        findMinikube w =
          (if w.extensionFileExists then some (getMinikubeExtensionPath w.lookup.env)
           else none))
    ∧ (∀ p, findMinikube w = some p →
        whereBinary w.lookup "minikube" = Except.ok p
        ∨ (w.extensionFileExists = true ∧ p = getMinikubeExtensionPath w.lookup.env)) := by
  refine ⟨?_, ?_, ?_, ?_⟩
  · intro out hposix hok
    rcases hposix with h | h <;>
      simp [whereBinary, h, hok]
  · intro out hlin hmac hwin hok
    simp [whereBinary, hlin, hmac, hwin, hok]
  · intro msg herr
    simp [findMinikube, herr]
  · intro p hp
    unfold findMinikube at hp
    cases hwb : whereBinary w.lookup "minikube" with
    | ok q =>
      simp only [hwb] at hp
      have hqp : q = p := Option.some.inj hp
      exact Or.inl (by rw [hqp])
    | error msg =>
      simp only [hwb] at hp
      by_cases hex : w.extensionFileExists
      · rw [if_pos hex] at hp
        exact Or.inr ⟨hex, (Option.some.inj hp).symm⟩
      · rw [if_neg hex] at hp
        exact Option.noConfusion hp

/-- C9 witness: Windows lookup output with a CRLF is stripped; a failing POSIX
lookup with the extension file present falls back to the extension path. -/
theorem whereBinary_findMinikube_behavior_witness :
    whereBinary
      { env := { isWindows := true, isLinux := false, isMac := false,
                 homedir := "C:/Users/u", storagePath := "C:/storage" }
      , whichResult := Except.error "unused"
      , whereResult := Except.ok "C:/tools/minikube.exe\r\n" } "minikube"
      = Except.ok "C:/tools/minikube.exe"
    ∧ findMinikube
      { lookup :=
        { env := { isWindows := false, isLinux := true, isMac := false,
                   homedir := "/home/user", storagePath := "/storage" }
        , whichResult := Except.error "not found"
        , whereResult := Except.error "unused" }
      , extensionFileExists := true }
      = some "/storage/minikube" := by
  constructor
  · have h := (whereBinary_findMinikube_behavior
      { lookup :=
        { env := { isWindows := true, isLinux := false, isMac := false,
                   homedir := "C:/Users/u", storagePath := "C:/storage" }
        , whichResult := Except.error "unused"
        , whereResult := Except.ok "C:/tools/minikube.exe\r\n" }
      , extensionFileExists := false }).2.1
      "C:/tools/minikube.exe\r\n" rfl rfl rfl rfl
    rw [h]
    decide
  · have h := (whereBinary_findMinikube_behavior
      { lookup :=
        { env := { isWindows := false, isLinux := true, isMac := false,
                   homedir := "/home/user", storagePath := "/storage" }
        , whichResult := Except.error "not found"
        , whereResult := Except.error "unused" }
      , extensionFileExists := true }).2.2.1
      "binary minikube not found." (by decide)
    rw [h]
    decide

/-- C10: when deletion fails with a permission error (`EACCES`/`EPERM`),
exactly one elevated retry runs, whose failure propagates as fatal; a deletion
failure with any other error propagates immediately with no elevated retry. -/
theorem deleteFile_permission_retry (w : DeleteWorld) (p : String) (code : Option String)
    (hp : p ≠ "")
    (hex : w.fileExists = true)
    (hcode : w.unlinkResult = Except.error code) :
    (isPermissionCode code = true →
      ((deleteFile w p).snd.filter isElevatedOp).length = 1
      ∧ (w.adminExecResult = Except.ok () → (deleteFile w p).fst = Except.ok ())
      ∧ (∀ e, w.adminExecResult = Except.error e →
          (deleteFile w p).fst = Except.error (DeleteError.execError e)))
    ∧ (isPermissionCode code = false →
      (deleteFile w p).fst = Except.error (DeleteError.fsError code)
      ∧ ((deleteFile w p).snd.filter isElevatedOp).length = 0)
    ∧ isPermissionCode code = (code == some "EACCES" || code == some "EPERM") := by
  have hne : (p != "") = true := bne_iff_ne.mpr hp
  refine ⟨?_, ?_, rfl⟩
  · intro hperm
    refine ⟨?_, ?_, ?_⟩
    · cases hadm : w.adminExecResult with
      | ok u =>
        simp [deleteFile, deleteFileAsAdmin, hne, hex, hcode, hperm, hadm, isElevatedOp]
      | error e =>
        simp [deleteFile, deleteFileAsAdmin, hne, hex, hcode, hperm, hadm, isElevatedOp]
    · intro hadm
      simp [deleteFile, deleteFileAsAdmin, hne, hex, hcode, hperm, hadm]
    · intro e hadm
      simp [deleteFile, deleteFileAsAdmin, hne, hex, hcode, hperm, hadm]
  · intro hperm
    constructor
    · simp [deleteFile, hne, hex, hcode, hperm]
    · simp [deleteFile, hne, hex, hcode, hperm, isElevatedOp]

/-- C10 witness: an `EACCES` unlink failure triggers exactly one elevated
retry whose failure is fatal; an `ENOENT` failure propagates with no retry. -/
theorem deleteFile_permission_retry_witness :
    (deleteFile
      { isWindows := false, fileExists := true
      , unlinkResult := Except.error (some "EACCES")
      , adminExecResult := Except.error "rm failed" } "/usr/local/bin/minikube").fst
      = Except.error (DeleteError.execError "rm failed")
    ∧ ((deleteFile
      { isWindows := false, fileExists := true
      , unlinkResult := Except.error (some "EACCES")
      , adminExecResult := Except.error "rm failed" } "/usr/local/bin/minikube").snd.filter
        isElevatedOp).length = 1
    ∧ (deleteFile
      { isWindows := false, fileExists := true
      , unlinkResult := Except.error (some "ENOENT")
      , adminExecResult := Except.ok () } "/usr/local/bin/minikube").fst
      = Except.error (DeleteError.fsError (some "ENOENT")) := by
  refine ⟨?_, ?_, ?_⟩
  · exact ((deleteFile_permission_retry _ "/usr/local/bin/minikube" (some "EACCES")
      (by decide) rfl rfl).1 (by decide)).2.2 "rm failed" rfl
  · exact ((deleteFile_permission_retry _ "/usr/local/bin/minikube" (some "EACCES")
      (by decide) rfl rfl).1 (by decide)).1
  · exact ((deleteFile_permission_retry _ "/usr/local/bin/minikube" (some "ENOENT")
      (by decide) rfl rfl).2.1 (by decide)).1

/-! ### Reconciler lemmas -/

theorem contains_of_mem {l : List String} {s : String} (h : s ∈ l) : l.contains s = true :=
  List.elem_iff.mpr h

theorem mem_of_contains {l : List String} {s : String} (h : l.contains s = true) : s ∈ l :=
  List.elem_iff.mp h

theorem presEntry_refl (e : Entry) : presEntry e e := ⟨rfl, rfl, rfl⟩

theorem presEntry_trans {a b c : Entry} (h1 : presEntry a b) (h2 : presEntry b c) :
    presEntry a c :=
  ⟨h2.1.trans h1.1, h2.2.1.trans h1.2.1, h2.2.2.trans h1.2.2⟩

theorem presEntry_connUpdate (cl : MinikubeContainer) (x : Entry) :
    presEntry x (connUpdate cl x) := ⟨rfl, rfl, rfl⟩

theorem presEntry_connId {a b : Entry} (h : presEntry a b) : b.connId = a.connId := h.1

theorem presEntry_name {a b : Entry} (h : presEntry a b) :
    b.connection.name = a.connection.name := h.2.1

/-- An element of the registry survives `updateFirst` either unchanged or
updated in place. -/
theorem mem_updateFirst_of_mem (nm : String) (cl : MinikubeContainer) (l : List Entry) :
    ∀ e ∈ l, ∃ e' ∈ updateFirst nm (connUpdate cl) l, presEntry e e' := by
  induction l with
  | nil => intro e he; exact absurd he (List.not_mem_nil e)
  | cons x rest ih =>
    intro e he
    unfold updateFirst
    split
    · rcases List.mem_cons.mp he with rfl | hrest
      · exact ⟨connUpdate cl e, List.mem_cons_self _ _, presEntry_connUpdate cl e⟩
      · exact ⟨e, List.mem_cons_of_mem _ hrest, presEntry_refl e⟩
    · rcases List.mem_cons.mp he with rfl | hrest
      · exact ⟨e, List.mem_cons_self _ _, presEntry_refl e⟩
      · rcases ih e hrest with ⟨e', he', hp⟩
        exact ⟨e', List.mem_cons_of_mem _ he', hp⟩

/-- Every element of `updateFirst` comes from the original list, unchanged or
updated in place. -/
theorem mem_updateFirst (nm : String) (cl : MinikubeContainer) (l : List Entry) :
    ∀ e' ∈ updateFirst nm (connUpdate cl) l, ∃ x ∈ l, e' = x ∨ e' = connUpdate cl x := by
  induction l with
  | nil => intro e' he'; exact absurd he' (List.not_mem_nil e')
  | cons x rest ih =>
    intro e' he'
    unfold updateFirst at he'
    split at he'
    · rcases List.mem_cons.mp he' with rfl | hrest
      · exact ⟨x, List.mem_cons_self _ _, Or.inr rfl⟩
      · exact ⟨e', List.mem_cons_of_mem _ hrest, Or.inl rfl⟩
    · rcases List.mem_cons.mp he' with rfl | hrest
      · exact ⟨e', List.mem_cons_self _ _, Or.inl rfl⟩
      · rcases ih e' hrest with ⟨y, hy, hor⟩
        exact ⟨y, List.mem_cons_of_mem _ hy, hor⟩

theorem names_map_updateFirst (nm : String) (cl : MinikubeContainer) (l : List Entry) :
    (updateFirst nm (connUpdate cl) l).map (fun e => e.connection.name)
      = l.map (fun e => e.connection.name) := by
  induction l with
  | nil => rfl
  | cons x rest ih =>
    unfold updateFirst
    split
    · rfl
    · simpa using ih

theorem connIds_map_updateFirst (nm : String) (cl : MinikubeContainer) (l : List Entry) :
    (updateFirst nm (connUpdate cl) l).map (fun e => e.connId)
      = l.map (fun e => e.connId) := by
  induction l with
  | nil => rfl
  | cons x rest ih =>
    unfold updateFirst
    split
    · rfl
    · simpa using ih

/-- Each registry entry survives one create-or-update step with identity,
name and lifecycle preserved. -/
theorem mem_updateOne_of_mem (st : RegistryState) (cl : MinikubeContainer) {e : Entry}
    (he : e ∈ st.registry) :
    ∃ e' ∈ (updateOne st cl).registry, presEntry e e' := by
  unfold updateOne
  cases hf : st.registry.find? (fun x => x.connection.name == cl.name) with
  | some y =>
    simpa using mem_updateFirst_of_mem cl.name cl st.registry e he
  | none =>
    exact ⟨e, List.mem_append_left _ he, presEntry_refl e⟩

/-- Each registry entry survives the whole create-or-update phase with
identity, name and lifecycle preserved. -/
theorem mem_foldl_updateOne (cls : List MinikubeContainer) :
    ∀ (st : RegistryState) (e : Entry), e ∈ st.registry →
      ∃ e' ∈ (cls.foldl updateOne st).registry, presEntry e e' := by
  induction cls with
  | nil => intro st e he; exact ⟨e, he, presEntry_refl e⟩
  | cons cl rest ih =>
    intro st e he
    rcases mem_updateOne_of_mem st cl he with ⟨e₁, he₁, hp₁⟩
    rcases ih (updateOne st cl) e₁ he₁ with ⟨e', he', hp'⟩
    exact ⟨e', by simpa using he', presEntry_trans hp₁ hp'⟩

/-- `updateOne` preserves the registry well-formedness invariant. -/
theorem wf_updateOne (st : RegistryState) (cl : MinikubeContainer) (h : wf st) :
    wf (updateOne st cl) := by
  obtain ⟨hn, hi, hb⟩ := h
  unfold updateOne
  cases hf : st.registry.find? (fun x => x.connection.name == cl.name) with
  | some y =>
    refine ⟨?_, ?_, ?_⟩
    · rw [names_map_updateFirst]; exact hn
    · rw [connIds_map_updateFirst]; exact hi
    · intro e he
      rcases mem_updateFirst cl.name cl st.registry e he with ⟨x, hx, h1 | h2⟩
      · rw [h1]; exact hb x hx
      · rw [h2]; exact hb x hx
  | none =>
    have hnot : ∀ x ∈ st.registry, x.connection.name ≠ cl.name := by
      intro x hx
      have := List.find?_eq_none.mp hf x hx
      simpa using this
    refine ⟨?_, ?_, ?_⟩
    · rw [List.map_append]
      rw [List.nodup_append]
      refine ⟨hn, List.nodup_singleton _, ?_⟩
      intro a ha hb'
      rcases List.mem_map.mp ha with ⟨x, hx, rfl⟩
      have : x.connection.name = cl.name := by simpa [freshEntry] using hb'
      exact hnot x hx this
    · rw [List.map_append]
      rw [List.nodup_append]
      refine ⟨hi, List.nodup_singleton _, ?_⟩
      intro a ha hb'
      rcases List.mem_map.mp ha with ⟨x, hx, rfl⟩
      have hlt : x.connId < st.nextId := hb x hx
      have : x.connId = st.nextId := by simpa [freshEntry] using hb'
      omega
    · intro e he
      rcases List.mem_append.mp he with hold | hnew
      · exact Nat.lt_succ_of_lt (hb e hold)
      · have : e = freshEntry st.nextId cl := by simpa using hnew
        rw [this]
        exact Nat.lt_succ_self _

theorem wf_foldl_updateOne (cls : List MinikubeContainer) :
    ∀ (st : RegistryState), wf st → wf (cls.foldl updateOne st) := by
  induction cls with
  | nil => intro st h; exact h
  | cons cl rest ih =>
    intro st h
    simpa using ih (updateOne st cl) (wf_updateOne st cl h)

theorem mem_eraseIdx_of_ne (l : List Entry) :
    ∀ (k : Nat) (h : k < l.length) (e : Entry),
      e ∈ l → e ≠ l.get ⟨k, h⟩ → e ∈ l.eraseIdx k := by
  induction l with
  | nil => intro k h; exact absurd h (Nat.not_lt_zero k)
  | cons x rest ih =>
    intro k h e he hne
    cases k with
    | zero =>
      rcases List.mem_cons.mp he with rfl | hr
      · exact absurd rfl hne
      · exact hr
    | succ k' =>
      rcases List.mem_cons.mp he with rfl | hr
      · exact List.mem_cons_self _ _
      · have h' : k' < rest.length := Nat.lt_of_succ_lt_succ h
        exact List.mem_cons_of_mem _ (ih k' h' e hr hne)

theorem mem_of_mem_eraseIdx (l : List Entry) :
    ∀ (k : Nat) (e : Entry), e ∈ l.eraseIdx k → e ∈ l := by
  induction l with
  | nil => intro k e he; exact absurd he (List.not_mem_nil e)
  | cons x rest ih =>
    intro k e he
    cases k with
    | zero => exact List.mem_cons_of_mem _ he
    | succ k' =>
      rcases List.mem_cons.mp he with rfl | hr
      · exact List.mem_cons_self _ _
      · exact List.mem_cons_of_mem _ (ih k' e hr)

/-- The removal loop never drops an entry whose name is in the derived
cluster-name set. -/
theorem forEachRemove_keep (names : List String) :
    ∀ (fuel k : Nat) (cur : List Entry) (e : Entry),
      e ∈ cur → names.contains e.connection.name = true →
      e ∈ (forEachRemove names fuel k cur).fst := by
  intro fuel
  induction fuel with
  | zero => intro k cur e he _; simpa [forEachRemove] using he
  | succ f ih =>
    intro k cur e he hc
    simp only [forEachRemove]
    split
    · next h =>
      split
      · exact ih (k + 1) cur e he hc
      · next hcont =>
        have hne : e ≠ cur.get ⟨k, h⟩ := by
          intro heq
          rw [heq] at hc
          exact hcont hc
        exact ih (k + 1) (cur.eraseIdx k) e (mem_eraseIdx_of_ne cur k h e he hne) hc
    · exact ih (k + 1) cur e he hc

/-- Every id the removal loop disposes belongs to an entry of the input whose
name is not in the derived cluster-name set. -/
theorem forEachRemove_disposed_from (names : List String) :
    ∀ (fuel k : Nat) (cur : List Entry) (i : Nat),
      i ∈ (forEachRemove names fuel k cur).snd →
      ∃ x ∈ cur, x.connId = i ∧ names.contains x.connection.name = false := by
  intro fuel
  induction fuel with
  | zero => intro k cur i hi; simp [forEachRemove] at hi
  | succ f ih =>
    intro k cur i hi
    simp only [forEachRemove] at hi
    split at hi
    · next h =>
      split at hi
      · rcases ih (k + 1) cur i hi with ⟨x, hx, hxi, hxc⟩
        exact ⟨x, hx, hxi, hxc⟩
      · next hcont =>
        rcases List.mem_cons.mp hi with rfl | hr
        · refine ⟨cur.get ⟨k, h⟩, List.get_mem cur k h, rfl, ?_⟩
          cases hb : names.contains (cur.get ⟨k, h⟩).connection.name
          · rfl
          · exact absurd hb hcont
        · rcases ih (k + 1) (cur.eraseIdx k) i hr with ⟨x, hx, hxi, hxc⟩
          exact ⟨x, mem_of_mem_eraseIdx cur k x hx, hxi, hxc⟩
    · rcases ih (k + 1) cur i hi with ⟨x, hx, hxi, hxc⟩
      exact ⟨x, hx, hxi, hxc⟩

/-- The removal loop's output is a sublist of its input. -/
theorem forEachRemove_sublist (names : List String) :
    ∀ (fuel k : Nat) (cur : List Entry),
      ((forEachRemove names fuel k cur).fst).Sublist cur := by
  intro fuel
  induction fuel with
  | zero => intro k cur; simp [forEachRemove]
  | succ f ih =>
    intro k cur
    simp only [forEachRemove]
    split
    · split
      · exact ih (k + 1) cur
      · exact (ih (k + 1) (cur.eraseIdx k)).trans (List.eraseIdx_sublist cur k)
    · exact ih (k + 1) cur

/-- When every entry's name is in the derived cluster-name set, the removal
loop removes and disposes nothing. -/
theorem forEachRemove_noop (names : List String) :
    ∀ (fuel k : Nat) (cur : List Entry),
      (∀ e ∈ cur, names.contains e.connection.name = true) →
      forEachRemove names fuel k cur = (cur, []) := by
  intro fuel
  induction fuel with
  | zero => intro k cur _; simp [forEachRemove]
  | succ f ih =>
    intro k cur hall
    simp only [forEachRemove]
    split
    · next h =>
      rw [hall (cur.get ⟨k, h⟩) (List.get_mem cur k h)]
      simp only [if_true]
      exact ih (k + 1) cur hall
    · exact ih (k + 1) cur hall

/-- Starting from a registry disjoint from the derived cluster names, the
create-or-update phase appends exactly one fresh entry per cluster, in
order, with consecutive identities. -/
theorem foldl_updateOne_fresh (cls : List MinikubeContainer) :
    ∀ (st : RegistryState),
      (cls.map (fun cl => cl.name)).Nodup →
      (∀ cl ∈ cls, ∀ e ∈ st.registry, e.connection.name ≠ cl.name) →
      cls.foldl updateOne st =
        { registry := st.registry ++ freshEntries st.nextId cls
        , nextId := st.nextId + cls.length
        , disposed := st.disposed } := by
  induction cls with
  | nil =>
    intro st _ _
    simp [freshEntries]
  | cons cl rest ih =>
    intro st hnd hdis
    have hfind : st.registry.find? (fun e => e.connection.name == cl.name) = none := by
      apply List.find?_eq_none.mpr
      intro e he
      simpa using hdis cl (List.mem_cons_self _ _) e he
    have hstep : updateOne st cl =
        { st with
          registry := st.registry ++ [freshEntry st.nextId cl]
        , nextId := st.nextId + 1 } := by
      unfold updateOne
      rw [hfind]
    have hnd' : (rest.map (fun cl => cl.name)).Nodup := by
      simpa using (List.nodup_cons.mp (by simpa using hnd)).2
    have hhead : cl.name ∉ rest.map (fun cl => cl.name) :=
      (List.nodup_cons.mp (by simpa using hnd)).1
    have hdis' : ∀ cl' ∈ rest,
        ∀ e ∈ st.registry ++ [freshEntry st.nextId cl], e.connection.name ≠ cl'.name := by
      intro cl' hcl' e he
      rcases List.mem_append.mp he with hold | hnew
      · exact hdis cl' (List.mem_cons_of_mem _ hcl') e hold
      · have he' : e = freshEntry st.nextId cl := by simpa using hnew
        rw [he']
        intro heq
        apply hhead
        rw [show cl.name = cl'.name from by simpa [freshEntry] using heq]
        exact List.mem_map_of_mem _ hcl'
    rw [List.foldl_cons, hstep, ih _ hnd' hdis']
    have hreg : (st.registry ++ [freshEntry st.nextId cl]) ++ freshEntries (st.nextId + 1) rest
        = st.registry ++ freshEntries st.nextId (cl :: rest) := by
      rw [List.append_assoc, List.singleton_append]
      rfl
    rw [hreg]
    have hlen : st.nextId + 1 + rest.length = st.nextId + (cl :: rest).length := by
      simp [List.length_cons]
      omega
    rw [hlen]

theorem mem_freshEntries_of_mem (cls : List MinikubeContainer) :
    ∀ (n : Nat) (cl : MinikubeContainer), cl ∈ cls →
      ∃ id, freshEntry id cl ∈ freshEntries n cls := by
  induction cls with
  | nil => intro n cl h; exact absurd h (List.not_mem_nil cl)
  | cons c rest ih =>
    intro n cl h
    rcases List.mem_cons.mp h with rfl | hr
    · exact ⟨n, List.mem_cons_self _ _⟩
    · rcases ih (n + 1) cl hr with ⟨id, hid⟩
      exact ⟨id, List.mem_cons_of_mem _ hid⟩

theorem name_mem_of_mem_freshEntries (cls : List MinikubeContainer) :
    ∀ (n : Nat) (e : Entry), e ∈ freshEntries n cls →
      e.connection.name ∈ cls.map (fun cl => cl.name) := by
  induction cls with
  | nil => intro n e he; exact absurd he (List.not_mem_nil e)
  | cons c rest ih =>
    intro n e he
    have he' : e = freshEntry n c ∨ e ∈ freshEntries (n + 1) rest := List.mem_cons.mp he
    rcases he' with rfl | hr
    · simp [freshEntry]
    · exact List.mem_cons_of_mem _ (ih (n + 1) e hr)

/-- A reconciliation pass from the empty registry with pairwise-distinct
derived names registers exactly the fresh entries, in container order, and
disposes nothing. -/
theorem updateClusters_from_empty (cs : List ContainerInfo)
    (hnodup : (clusterNames cs).Nodup) :
    updateClusters initialState cs =
      { registry := freshEntries 0 (derivedClusters cs)
      , nextId := (derivedClusters cs).length
      , disposed := [] } := by
  have hfold : (derivedClusters cs).foldl updateOne initialState =
      { registry := freshEntries 0 (derivedClusters cs)
      , nextId := (derivedClusters cs).length
      , disposed := [] } := by
    have h := foldl_updateOne_fresh (derivedClusters cs) initialState hnodup
      (fun cl _ e he => absurd he (List.not_mem_nil e))
    simpa [initialState] using h
  have hnoop := forEachRemove_noop (clusterNames cs)
    (freshEntries 0 (derivedClusters cs)).length 0 (freshEntries 0 (derivedClusters cs))
    (fun e he => contains_of_mem (name_mem_of_mem_freshEntries _ 0 e he))
  simp only [updateClusters]
  rw [hfold]
  simp only []
  rw [hnoop]
  simp [initialState]

/-- C1: each container carrying the managed-cluster label is mapped to a
cluster named by the label value, whose status is `started` iff the container
State is exactly `running` (any other state yields `stopped`), and whose
apiPort is the PublicPort of a port binding with PrivatePort 8443 and Type
`tcp` (0 when no such binding exists); reconciling from the empty registry
registers for it a connection with endpoint `https://localhost:<apiPort>` and
a start lifecycle invoking the binary with `['start', '--profile', <name>]`. -/
theorem updateClusters_container_mapping (cs : List ContainerInfo) (c : ContainerInfo)
    (nm : String) (hmem : c ∈ cs) (hlabel : lookupLabel c = some nm)
    (hnodup : (clusterNames cs).Nodup) :
    (toMinikubeContainer c).name = nm
    ∧ ((toMinikubeContainer c).status = "started" ↔ c.State = "running")
    ∧ (c.State ≠ "running" → (toMinikubeContainer c).status = "stopped")
    ∧ (∀ p, c.Ports.find? isApiPortBinding = some p →
        (toMinikubeContainer c).apiPort = p.PublicPort)
    ∧ (c.Ports.find? isApiPortBinding = none → (toMinikubeContainer c).apiPort = 0)
    ∧ ∃ e ∈ (updateClusters initialState cs).registry,
        e.connection.name = nm
        ∧ e.connection.status = (toMinikubeContainer c).status
        ∧ e.connection.apiURL = apiURLOf (toMinikubeContainer c).apiPort
        ∧ e.connection.lifecycle.startArgs = ["start", "--profile", nm] := by
  have hname : (toMinikubeContainer c).name = nm := by
    simp [toMinikubeContainer, hlabel]
  refine ⟨hname, ?_, ?_, ?_, ?_, ?_⟩
  · by_cases hr : c.State = "running"
    · simp [toMinikubeContainer, hr]
    · simp only [toMinikubeContainer]
      simp [hr]
  · intro hr
    simp [toMinikubeContainer, hr]
  · intro p hp
    simp [toMinikubeContainer, hp]
  · intro hp
    simp [toMinikubeContainer, hp]
  · have hreg := updateClusters_from_empty cs hnodup
    have hclmem : toMinikubeContainer c ∈ derivedClusters cs :=
      List.mem_map_of_mem toMinikubeContainer hmem
    rcases mem_freshEntries_of_mem (derivedClusters cs) 0 (toMinikubeContainer c) hclmem
      with ⟨id, hid⟩
    refine ⟨freshEntry id (toMinikubeContainer c), ?_, hname, rfl, rfl, ?_⟩
    · rw [hreg]
      exact hid
    · simp [freshEntry, mkLifecycle, hname]

/-- C1 witness: the end-to-end example container reconciles to a connection
named `minikube`, status `started`, endpoint `https://localhost:55000`, whose
start lifecycle invokes `['start', '--profile', 'minikube']`. -/
theorem updateClusters_container_mapping_witness :
    ∃ e ∈ (updateClusters initialState
      [ { Labels := [(minikubeLabelKey, "minikube")]
        , State := "running"
        , Ports := [{ PrivatePort := 8443, PublicPort := 55000, Type' := "tcp" }]
        , engineType := "podman", engineId := "engine1", Id := "c1" } ]).registry,
      e.connection.name = "minikube"
      ∧ e.connection.status = "started"
      ∧ e.connection.apiURL = "https://localhost:55000"
      ∧ e.connection.lifecycle.startArgs = ["start", "--profile", "minikube"] := by
  have h := updateClusters_container_mapping
    [ { Labels := [(minikubeLabelKey, "minikube")]
      , State := "running"
      , Ports := [{ PrivatePort := 8443, PublicPort := 55000, Type' := "tcp" }]
      , engineType := "podman", engineId := "engine1", Id := "c1" } ]
    { Labels := [(minikubeLabelKey, "minikube")]
    , State := "running"
    , Ports := [{ PrivatePort := 8443, PublicPort := 55000, Type' := "tcp" }]
    , engineType := "podman", engineId := "engine1", Id := "c1" }
    "minikube" (List.mem_cons_self _ _) (by decide) (by decide)
  rcases h.2.2.2.2.2 with ⟨e, hmem, hn, hs, ha, hl⟩
  refine ⟨e, hmem, hn, ?_, ?_, hl⟩
  · rw [hs]; decide
  · rw [ha]; decide

/-- C2: a connection whose name persists into the next reconciliation pass
keeps its object identity, name and lifecycle closures, is not disposed by the
pass, and stays the unique registered connection with that name — only its
status accessor and endpoint URL may change. -/
theorem updateClusters_preserves_connection (st : RegistryState) (cs : List ContainerInfo)
    (e : Entry) (hwf : wf st) (he : e ∈ st.registry)
    (hname : e.connection.name ∈ clusterNames cs) :
    ∃ e' ∈ (updateClusters st cs).registry,
      presEntry e e'
      ∧ e.connId ∉ newlyDisposed st cs
      ∧ ∀ e'' ∈ (updateClusters st cs).registry,
          e''.connection.name = e.connection.name → e'' = e' := by
  have hwf1 : wf ((derivedClusters cs).foldl updateOne st) :=
    wf_foldl_updateOne (derivedClusters cs) st hwf
  rcases mem_foldl_updateOne (derivedClusters cs) st e he with ⟨e₁, he₁, hp₁⟩
  have hc₁ : (clusterNames cs).contains e₁.connection.name = true := by
    rw [presEntry_name hp₁]
    exact contains_of_mem hname
  have hregeq : (updateClusters st cs).registry =
      (forEachRemove (clusterNames cs)
        ((derivedClusters cs).foldl updateOne st).registry.length 0
        ((derivedClusters cs).foldl updateOne st).registry).fst := rfl
  have hdispeq : newlyDisposed st cs =
      (forEachRemove (clusterNames cs)
        ((derivedClusters cs).foldl updateOne st).registry.length 0
        ((derivedClusters cs).foldl updateOne st).registry).snd := rfl
  have hkeep : e₁ ∈ (updateClusters st cs).registry := by
    rw [hregeq]
    exact forEachRemove_keep (clusterNames cs) _ 0 _ e₁ he₁ hc₁
  refine ⟨e₁, hkeep, hp₁, ?_, ?_⟩
  · intro hdis
    rw [hdispeq] at hdis
    rcases forEachRemove_disposed_from (clusterNames cs) _ 0 _ e.connId hdis
      with ⟨x, hx, hxid, hxc⟩
    have hxe₁ : x = e₁ := by
      apply List.inj_on_of_nodup_map hwf1.2.1 hx he₁
      rw [hxid, presEntry_connId hp₁]
    rw [hxe₁, hc₁] at hxc
    exact Bool.noConfusion hxc
  · intro e'' he'' hne''
    have hsub : ((updateClusters st cs).registry).Sublist
        ((derivedClusters cs).foldl updateOne st).registry := by
      rw [hregeq]
      exact forEachRemove_sublist _ _ 0 _
    have hnd : ((updateClusters st cs).registry.map (fun x => x.connection.name)).Nodup :=
      List.Nodup.sublist (List.Sublist.map _ hsub) hwf1.1
    exact List.inj_on_of_nodup_map hnd he'' hkeep
      (by rw [hne'', presEntry_name hp₁])

/-- C2 witness: re-reconciling a registered `minikube` connection against a
now-stopped container keeps the same connection object (identity, name,
lifecycle), does not dispose it, and leaves it the unique connection of that
name. -/
theorem updateClusters_preserves_connection_witness :
    ∃ e' ∈ (updateClusters
      { registry :=
        [ { connId := 0
          , connection :=
            { name := "minikube", status := "started"
            , apiURL := "https://localhost:55000", lifecycle := mkLifecycle "minikube" } } ]
      , nextId := 1, disposed := [] }
      [ { Labels := [(minikubeLabelKey, "minikube")]
        , State := "stopped", Ports := []
        , engineType := "podman", engineId := "engine1", Id := "c1" } ]).registry,
      presEntry
        { connId := 0
        , connection :=
          { name := "minikube", status := "started"
          , apiURL := "https://localhost:55000", lifecycle := mkLifecycle "minikube" } } e'
      ∧ (0 : Nat) ∉ newlyDisposed
        { registry :=
          [ { connId := 0
            , connection :=
              { name := "minikube", status := "started"
              , apiURL := "https://localhost:55000", lifecycle := mkLifecycle "minikube" } } ]
        , nextId := 1, disposed := [] }
        [ { Labels := [(minikubeLabelKey, "minikube")]
          , State := "stopped", Ports := []
          , engineType := "podman", engineId := "engine1", Id := "c1" } ]
      ∧ ∀ e'' ∈ (updateClusters
        { registry :=
          [ { connId := 0
            , connection :=
              { name := "minikube", status := "started"
              , apiURL := "https://localhost:55000", lifecycle := mkLifecycle "minikube" } } ]
        , nextId := 1, disposed := [] }
        [ { Labels := [(minikubeLabelKey, "minikube")]
          , State := "stopped", Ports := []
          , engineType := "podman", engineId := "engine1", Id := "c1" } ]).registry,
          e''.connection.name = "minikube" → e'' = e' :=
  updateClusters_preserves_connection
    { registry :=
      [ { connId := 0
        , connection :=
          { name := "minikube", status := "started"
          , apiURL := "https://localhost:55000", lifecycle := mkLifecycle "minikube" } } ]
    , nextId := 1, disposed := [] }
    [ { Labels := [(minikubeLabelKey, "minikube")]
      , State := "stopped", Ports := []
      , engineType := "podman", engineId := "engine1", Id := "c1" } ]
    { connId := 0
    , connection :=
      { name := "minikube", status := "started"
      , apiURL := "https://localhost:55000", lifecycle := mkLifecycle "minikube" } }
    (by decide) (by decide) (by decide)

/-- C3 evaluation at the failing input: with two adjacent stale registered
connections (`a` then `b`) and an empty derived cluster set, the
forEach-with-splice removal loop disposes and removes only `a`; `b` is
skipped by the index shift and stays registered and undisposed, although its
name is absent from the derived set. -/
theorem updateClusters_skips_adjacent_stale :
    updateClusters
      { registry :=
        [ { connId := 0
          , connection :=
            { name := "a", status := "started"
            , apiURL := "https://localhost:1", lifecycle := mkLifecycle "a" } }
        , { connId := 1
          , connection :=
            { name := "b", status := "started"
            , apiURL := "https://localhost:2", lifecycle := mkLifecycle "b" } } ]
      , nextId := 2, disposed := [] } []
      = { registry :=
          [ { connId := 1
            , connection :=
              { name := "b", status := "started"
              , apiURL := "https://localhost:2", lifecycle := mkLifecycle "b" } } ]
        , nextId := 2, disposed := [0] } := by
  decide

end Minikube
